import Mathlib

/-!
# Verification of the WROOM camera display frame pipeline

Shallow embedding of the frame-assembly pipeline of the
`camera-wroom-display` firmware: `FrameProcessor` (packet reassembly,
JPEG structural validation, timeout handling), the adaptive render
pacing of `TaskManager::highSpeedDisplayTask`, and the JPEG tile
output callback `highSpeedTftOutput` of the display manager.

Machine integers are modelled as `Nat` with explicit `% 2^w` where the
C code can overflow or truncate (`uint16_t`/`uint32_t` fields, counter
increments, `millis()` subtraction).  Byte buffers are modelled as
total functions `Nat → Nat`; packets are byte lists.  The model
assumes an initialized processor (buffers allocated, mutexes created);
mutex acquisition success and the `millis()` clock are oracle
parameters of each operation.
-/

namespace Wroom

namespace Config

/-- `Config::MAX_FRAME_SIZE = 35000` -/
def MAX_FRAME_SIZE : Nat := 35000

/-- `Config::FRAME_TIMEOUT = 150` -/
def FRAME_TIMEOUT : Nat := 150

/-- `Config::TARGET_FPS = 60` -/
def TARGET_FPS : Nat := 60

/-- `Config::MIN_RENDER_INTERVAL = 16` (the slowest pacing interval, 60 FPS) -/
def MIN_RENDER_INTERVAL : Nat := 16

/-- `Config::FAST_RENDER_INTERVAL = 8` (the fastest pacing interval, 125 FPS) -/
def FAST_RENDER_INTERVAL : Nat := 8

/-- `Config::MAX_PACKETS = 500` -/
def MAX_PACKETS : Nat := 500

/-- `Config::DISPLAY_WIDTH = 480` -/
def DISPLAY_WIDTH : Nat := 480

/-- `Config::DISPLAY_HEIGHT = 320` -/
def DISPLAY_HEIGHT : Nat := 320

end Config

/-- A byte (or pixel) buffer: contents by index. -/
abbrev Buf := Nat → Nat

/-- `struct CompleteFrameState` of `config.h`.  `frameId`,
`totalPackets`, `receivedPackets` are `uint16_t` fields;
`totalSize` and `startTime` are `uint32_t`. -/
structure CompleteFrameState where
  frameId : Nat
  totalPackets : Nat
  receivedPackets : Nat
  totalSize : Nat
  startTime : Nat
  isComplete : Bool
  isValid : Bool
  isRendering : Bool

/-- `CompleteFrameState::reset()` -/
def CompleteFrameState.reset : CompleteFrameState :=
  { frameId := 0, totalPackets := 0, receivedPackets := 0, totalSize := 0,
    startTime := 0, isComplete := false, isValid := false, isRendering := false }

/-- The telemetry counters of `PerformanceMonitor` (all `uint32_t`). -/
structure PerfCounters where
  totalFramesStarted : Nat
  completeFramesReceived : Nat
  completeFramesRendered : Nat
  incompleteFramesDiscarded : Nat
  corruptFramesDiscarded : Nat
  memoryErrors : Nat

/-- Zero-initialized counters (the `PerformanceMonitor` constructor). -/
def PerfCounters.init : PerfCounters :=
  { totalFramesStarted := 0, completeFramesReceived := 0,
    completeFramesRendered := 0, incompleteFramesDiscarded := 0,
    corruptFramesDiscarded := 0, memoryErrors := 0 }

/-- The state of an initialized `FrameProcessor` together with the
performance counters it updates. -/
structure ProcState where
  frameBuffer : Buf
  assemblyBuffer : Buf
  packetReceived : Nat → Bool
  currentFrame : CompleteFrameState
  perf : PerfCounters

/-- State after `FrameProcessor::initialize()`: buffers zeroed, packet
tracking cleared, `currentFrame.reset()` from the constructor,
counters zero. -/
def initState : ProcState :=
  { frameBuffer := fun _ => 0, assemblyBuffer := fun _ => 0,
    packetReceived := fun _ => false,
    currentFrame := CompleteFrameState.reset,
    perf := PerfCounters.init }

/-- Little-endian `uint16_t` read at byte offset `o`
(`*(uint16_t*)&packetData[o]`). -/
def readU16 (d : List Nat) (o : Nat) : Nat :=
  d.getD o 0 + 256 * d.getD (o + 1) 0

/-- Little-endian `uint32_t` read at byte offset `o`
(`*(uint32_t*)&packetData[o]`). -/
def readU32 (d : List Nat) (o : Nat) : Nat :=
  d.getD o 0 + 256 * d.getD (o + 1) 0 + 65536 * d.getD (o + 2) 0 +
    16777216 * d.getD (o + 3) 0

/-- `memcpy(buf + off, data, data.length)`: write a byte list into a
buffer at an offset. -/
def writeBytes (buf : Buf) (off : Nat) (data : List Nat) : Buf :=
  match data with
  | [] => buf
  | b :: rest => writeBytes (Function.update buf off b) (off + 1) rest

/-- `memcpy(dst, src, n)` over whole buffers: the first `n` bytes come
from `src`, the rest keep `dst`. -/
def memcpyBuf (dst src : Buf) (n : Nat) : Buf :=
  fun i => if i < n then src i else dst i

/-- `FrameProcessor::processPacket(packetData, size)`.
`data` is the datagram bytes (`size = data.length`), `now` the value
`millis()` would return, `lockOk` whether `lockFrame(5)` succeeds.
Returns the C function's boolean result and the post state. -/
def processPacket (s : ProcState) (data : List Nat) (now : Nat) (lockOk : Bool) :
    Bool × ProcState :=
  if data.length < 12 then (false, s) else
  let frame_id := readU32 data 0
  let total_packets := readU16 data 4
  let packet_idx := readU16 data 6
  let packet_size := readU32 data 8
  let payload := data.drop 12
  let actualDataSize := data.length - 12
  if packet_size ≠ actualDataSize ∨ packet_idx ≥ total_packets ∨
      total_packets = 0 ∨ total_packets > Config.MAX_PACKETS then (false, s)
  else if lockOk = false then (false, s)
  else if packet_idx = 0 then
    -- first packet of a new frame: quick JPEG header validation
    if actualDataSize < 2 ∨ payload.getD 0 0 ≠ 0xFF ∨ payload.getD 1 0 ≠ 0xD8 then
      (false, s)
    else
      -- fast frame initialization (frameId is a uint16_t field: truncation)
      let cf : CompleteFrameState :=
        { frameId := frame_id % 65536, totalPackets := total_packets,
          receivedPackets := 1, totalSize := packet_size,
          startTime := now % 4294967296,
          isComplete := false, isValid := false, isRendering := false }
      let s1 : ProcState :=
        { s with
          currentFrame := cf,
          perf := { s.perf with
            totalFramesStarted := (s.perf.totalFramesStarted + 1) % 4294967296 },
          packetReceived := Function.update (fun _ => false) 0 true }
      if packet_size ≤ Config.MAX_FRAME_SIZE then
        (true,
          { s1 with
            assemblyBuffer := writeBytes s1.assemblyBuffer 0 payload,
            currentFrame :=
              if total_packets = 1 then { cf with isComplete := true } else cf })
      else (false, s1)
  else
    -- continuation packet handling
    if frame_id = s.currentFrame.frameId ∧ s.currentFrame.receivedPackets > 0 then
      if s.packetReceived packet_idx = false then
        if (s.currentFrame.totalSize + packet_size) % 4294967296 ≤
            Config.MAX_FRAME_SIZE then
          let newSize := (s.currentFrame.totalSize + packet_size) % 4294967296
          let newRecv := (s.currentFrame.receivedPackets + 1) % 65536
          (true,
            { s with
              assemblyBuffer :=
                writeBytes s.assemblyBuffer s.currentFrame.totalSize payload,
              currentFrame :=
                { s.currentFrame with
                  totalSize := newSize, receivedPackets := newRecv,
                  isComplete :=
                    if newRecv = s.currentFrame.totalPackets then true
                    else s.currentFrame.isComplete },
              packetReceived := Function.update s.packetReceived packet_idx true })
        else (false, s)
      else (false, s)
    else (false, s)

/-- `FrameProcessor::validateCompleteJPEG(buffer, size)`: start marker
check, then a scan of the last 20 bytes for the `FF D9` end marker. -/
def validateCompleteJPEG (buf : Buf) (size : Nat) : Bool :=
  if size < 20 then false
  else if buf 0 ≠ 0xFF ∨ buf 1 ≠ 0xD8 then false
  else
    let searchStart := if size > 20 then size - 20 else 0
    (List.range (size - 1 - searchStart)).any fun k =>
      buf (searchStart + k) == 0xFF && buf (searchStart + k + 1) == 0xD9

/-- `FrameProcessor::assembleCompleteFrame()`: verify all packets
received, validate the assembled JPEG, then copy to the frame buffer. -/
def assembleCompleteFrame (s : ProcState) : Bool × ProcState :=
  if (List.range s.currentFrame.totalPackets).all (fun i => s.packetReceived i) then
    if validateCompleteJPEG s.assemblyBuffer s.currentFrame.totalSize then
      (true,
        { s with
          frameBuffer := memcpyBuf s.frameBuffer s.assemblyBuffer s.currentFrame.totalSize,
          currentFrame := { s.currentFrame with isValid := true },
          perf := { s.perf with
            completeFramesReceived := (s.perf.completeFramesReceived + 1) % 4294967296 } })
    else
      (false,
        { s with perf := { s.perf with
            corruptFramesDiscarded := (s.perf.corruptFramesDiscarded + 1) % 4294967296 } })
  else (false, s)

/-- `millis() - startTime` as `uint32_t` subtraction. -/
def elapsedMillis (now startTime : Nat) : Nat :=
  (now % 4294967296 + 4294967296 - startTime % 4294967296) % 4294967296

/-- `FrameProcessor::handleFrameTimeout()`: abort an in-flight frame
whose start time is more than `FRAME_TIMEOUT` ms old, if the frame
lock can be taken. -/
def handleFrameTimeout (s : ProcState) (now : Nat) (lockOk : Bool) : ProcState :=
  if s.currentFrame.receivedPackets > 0 ∧
      elapsedMillis now s.currentFrame.startTime > Config.FRAME_TIMEOUT then
    if lockOk then
      { s with
        currentFrame := { s.currentFrame with receivedPackets := 0, isComplete := false },
        perf := { s.perf with
          incompleteFramesDiscarded :=
            (s.perf.incompleteFramesDiscarded + 1) % 4294967296 } }
    else s
  else s

/-- `FrameProcessor::resetCurrentFrame()` -/
def resetCurrentFrame (s : ProcState) : ProcState :=
  { s with currentFrame :=
      { s.currentFrame with isComplete := false, isValid := false, receivedPackets := 0 } }

/-- One call to a `FrameProcessor` operation, with its oracle inputs
(clock value, lock success). -/
inductive Op where
  | packet (data : List Nat) (now : Nat) (lockOk : Bool)
  | assemble
  | timeout (now : Nat) (lockOk : Bool)
  | reset

/-- Apply one operation to a processor state. -/
def applyOp (s : ProcState) : Op → ProcState
  | .packet d n l => (processPacket s d n l).2
  | .assemble => (assembleCompleteFrame s).2
  | .timeout n l => handleFrameTimeout s n l
  | .reset => resetCurrentFrame s

/-- States reachable from the initialized processor by operations
allowed by `P` (which may inspect the pre-state). -/
inductive ReachableWhen (P : ProcState → Op → Prop) : ProcState → Prop
  | init : ReachableWhen P initState
  | step {s : ProcState} {op : Op} :
      ReachableWhen P s → P s op → ReachableWhen P (applyOp s op)

/-- States reachable by arbitrary sequences of
`processPacket` / `assembleCompleteFrame` / `handleFrameTimeout` /
`resetCurrentFrame` calls. -/
def Reachable (s : ProcState) : Prop :=
  ReachableWhen (fun _ _ => True) s

/-- `memcpy(&displayBuffer[dst], &bitmap[src], n << 1)`: copy `n`
16-bit pixels from `bitmap` starting at `src` into the display buffer
starting at `dst`. -/
def writePixelRun (buf bm : Buf) (dst src n : Nat) : Buf :=
  fun i => if dst ≤ i ∧ i < dst + n then bm (src + (i - dst)) else buf i

/-- The row loop of `highSpeedTftOutput`: for each `row < h`, copy `w`
pixels from `bitmap[row*w]` to `displayBuffer[(y+row)*DISPLAY_WIDTH + x]`
when the destination run fits in the display buffer. -/
def copyTile (buf bm : Buf) (x y w : Nat) : Nat → Buf
  | 0 => buf
  | h + 1 =>
    let prev := copyTile buf bm x y w h
    let dstOffset := (y + h) * Config.DISPLAY_WIDTH + x
    if dstOffset + w ≤ Config.DISPLAY_WIDTH * Config.DISPLAY_HEIGHT then
      writePixelRun prev bm dstOffset (h * w) w
    else prev

/-- Observable outcome of one `highSpeedTftOutput` callback call:
the C return value, the display buffer afterwards (when one exists),
and the rectangle forwarded to `tft.pushImage` (when any). -/
structure TileResult where
  ret : Nat
  buffer : Option Buf
  pushed : Option (Nat × Nat × Nat × Nat)

/-- The TJpg_Decoder tile callback `highSpeedTftOutput(x, y, w, h,
bitmap)`.  `displayBuffer` is `DisplayManager`'s optional pixel
buffer.  Tile origins from the decoder are non-negative. -/
def highSpeedTftOutput (x y w h : Nat) (bitmap : Option Buf)
    (displayBuffer : Option Buf) : TileResult :=
  match bitmap with
  | none => ⟨0, displayBuffer, none⟩
  | some bm =>
    if y ≥ Config.DISPLAY_HEIGHT ∨ x ≥ Config.DISPLAY_WIDTH then
      ⟨0, displayBuffer, none⟩
    else
      -- fast bounds checking
      let w1 := if x + w > Config.DISPLAY_WIDTH then Config.DISPLAY_WIDTH - x else w
      let h1 := if y + h > Config.DISPLAY_HEIGHT then Config.DISPLAY_HEIGHT - y else h
      if w1 > 0 ∧ h1 > 0 then
        match displayBuffer with
        | some db => ⟨1, some (copyTile db bm x y w1 h1), none⟩
        | none => ⟨1, none, some (x, y, w1, h1)⟩
      else ⟨1, displayBuffer, none⟩

/-- The adaptive-pacing update of `TaskManager::highSpeedDisplayTask`,
as a function of the measured throughput and the current interval.
The float thresholds `TARGET_FPS * 1.1f` and `TARGET_FPS * 0.9f` are
modelled as the exact rationals `66` and `54`; no value of the form
`30000/(dt+1)` falls between either rational threshold and its
float counterpart, so the branch taken agrees with the C code
for every integer time delta. -/
def adaptiveStep (avgFPS : ℚ) (interval : Nat) : Nat :=
  if avgFPS > (Config.TARGET_FPS : ℚ) * (11 / 10) then
    min ((interval + 1) % 4294967296) Config.MIN_RENDER_INTERVAL
  else if avgFPS < (Config.TARGET_FPS : ℚ) * (9 / 10) then
    max ((interval + 4294967296 - 1) % 4294967296) Config.FAST_RENDER_INTERVAL
  else interval

/-- The sampling condition of the adaptive frame rate control:
`frameCount % 30 == 0 && frameCount > 0`. -/
def isSamplingPoint (frameCount : Nat) : Prop :=
  frameCount % 30 = 0 ∧ frameCount > 0

/-! ## Helper lemmas -/

/-- Pointwise description of `writeBytes`. -/
theorem writeBytes_apply (l : List Nat) (buf : Buf) (off i : Nat) :
    writeBytes buf off l i =
      if off ≤ i ∧ i < off + l.length then l.getD (i - off) 0 else buf i := by
  induction l generalizing buf off with
  | nil =>
    rw [writeBytes, if_neg (by simp only [List.length_nil]; omega)]
  | cons b rest ih =>
    rw [writeBytes, ih]
    rcases Nat.lt_trichotomy i off with hlt | heq | hgt
    · rw [if_neg, if_neg]
      · simp [Function.update_apply, Nat.ne_of_lt hlt]
      · simp only [List.length_cons]; omega
      · omega
    · subst heq
      rw [if_neg (by omega), if_pos (by simp only [List.length_cons]; omega)]
      simp [Function.update_apply]
    · by_cases hin : i < off + 1 + rest.length
      · rw [if_pos (by omega), if_pos (by simp only [List.length_cons]; omega)]
        have hsucc : i - off = (i - (off + 1)) + 1 := by omega
        simp [hsucc, List.getD_cons_succ]
      · rw [if_neg (by omega), if_neg (by simp only [List.length_cons]; omega)]
        simp [Function.update_apply, Nat.ne_of_gt hgt]

/-- Number of tracking bits set among indices `< n`. -/
def setBitsBelow (p : Nat → Bool) (n : Nat) : Nat :=
  ((Finset.range n).filter (fun i => p i = true)).card

theorem setBitsBelow_le (p : Nat → Bool) (n : Nat) : setBitsBelow p n ≤ n := by
  calc ((Finset.range n).filter (fun i => p i = true)).card
      ≤ (Finset.range n).card := Finset.card_filter_le _ _
    _ = n := Finset.card_range n

theorem setBitsBelow_lt (p : Nat → Bool) {n i : Nat} (hi : i < n)
    (hp : p i = false) : setBitsBelow p n < n := by
  have hsub : (Finset.range n).filter (fun i => p i = true) ⊂ Finset.range n := by
    refine Finset.ssubset_iff_of_subset (Finset.filter_subset _ _) |>.mpr ?_
    exact ⟨i, Finset.mem_range.mpr hi, by simp [hp]⟩
  have hcard := Finset.card_lt_card hsub
  rw [Finset.card_range] at hcard
  exact hcard

theorem setBitsBelow_update_true (p : Nat → Bool) {n i : Nat} (hi : i < n)
    (hp : p i = false) :
    setBitsBelow (Function.update p i true) n = setBitsBelow p n + 1 := by
  unfold setBitsBelow
  have hset : (Finset.range n).filter (fun j => Function.update p i true j = true) =
      insert i ((Finset.range n).filter (fun j => p j = true)) := by
    ext j
    by_cases hj : j = i
    · subst hj
      simp [Function.update, hi]
    · simp [Function.update, hj, Finset.mem_insert]
  rw [hset, Finset.card_insert_of_not_mem (by simp [hp])]

theorem setBitsBelow_single (n : Nat) (hn : 1 ≤ n) :
    setBitsBelow (Function.update (fun _ => false) 0 true) n = 1 := by
  unfold setBitsBelow
  have hset : (Finset.range n).filter
      (fun j => Function.update (fun _ => false) 0 true j = true) = {0} := by
    ext j
    simp only [Finset.mem_filter, Finset.mem_range, Finset.mem_singleton,
      Function.update_apply]
    constructor
    · rintro ⟨_, hval⟩
      by_cases h0 : j = 0
      · exact h0
      · simp [h0] at hval
    · rintro rfl
      exact ⟨hn, by simp⟩
  rw [hset, Finset.card_singleton]

/-- Packet restriction under which the spec's frame invariant is
actually inductive: the declared payload size fits in a frame, and a
continuation fragment carries the in-flight frame's `totalPackets`. -/
def GoodPkt (s : ProcState) (data : List Nat) : Prop :=
  readU32 data 8 ≤ Config.MAX_FRAME_SIZE ∧
    (readU16 data 6 ≠ 0 → readU16 data 4 = s.currentFrame.totalPackets)

/-- Operation restriction: packets are `GoodPkt`, other operations
unrestricted. -/
def GoodOp (s : ProcState) : Op → Prop
  | .packet d _ _ => GoodPkt s d
  | _ => True

/-- The inductive frame invariant: `receivedPackets` is bounded by the
number of set tracking bits below `totalPackets`, `totalPackets` and
`totalSize` are bounded, and `isComplete` tracks
`receivedPackets == totalPackets` for started frames. -/
def Inv (s : ProcState) : Prop :=
  s.currentFrame.receivedPackets ≤
      setBitsBelow s.packetReceived s.currentFrame.totalPackets ∧
    s.currentFrame.totalPackets ≤ Config.MAX_PACKETS ∧
    s.currentFrame.totalSize ≤ Config.MAX_FRAME_SIZE ∧
    (s.currentFrame.isComplete = true ↔
      (s.currentFrame.receivedPackets = s.currentFrame.totalPackets ∧
        1 ≤ s.currentFrame.receivedPackets))

theorem inv_initState : Inv initState := by
  refine ⟨?_, ?_, ?_, ?_⟩ <;>
    simp [initState, CompleteFrameState.reset, setBitsBelow, Config.MAX_PACKETS,
      Config.MAX_FRAME_SIZE]

theorem inv_processPacket {s : ProcState} {data : List Nat} {now : Nat}
    {lock : Bool} (hInv : Inv s) (hGood : GoodPkt s data) :
    Inv (processPacket s data now lock).2 := by
  obtain ⟨hA, hB, hC, hD⟩ := hInv
  obtain ⟨hSize, hTotEq⟩ := hGood
  by_cases h1 : data.length < 12
  · simp only [processPacket, if_pos h1]
    exact ⟨hA, hB, hC, hD⟩
  by_cases h2 : readU32 data 8 ≠ data.length - 12 ∨
      readU16 data 6 ≥ readU16 data 4 ∨ readU16 data 4 = 0 ∨
      readU16 data 4 > Config.MAX_PACKETS
  · simp only [processPacket, if_neg h1, if_pos h2]
    exact ⟨hA, hB, hC, hD⟩
  by_cases h3 : lock = false
  · simp only [processPacket, if_neg h1, if_neg h2, if_pos h3]
    exact ⟨hA, hB, hC, hD⟩
  have h2' := h2
  push_neg at h2'
  obtain ⟨hps, hlt, hne0, hle⟩ := h2'
  by_cases h4 : readU16 data 6 = 0
  · -- first packet of a new frame
    by_cases h5 : data.length - 12 < 2 ∨ (data.drop 12).getD 0 0 ≠ 0xFF ∨
        (data.drop 12).getD 1 0 ≠ 0xD8
    · simp only [processPacket, if_neg h1, if_neg h2, if_neg h3, if_pos h4,
        if_pos h5]
      exact ⟨hA, hB, hC, hD⟩
    · have htp1 : 1 ≤ readU16 data 4 := Nat.one_le_iff_ne_zero.mpr hne0
      simp only [processPacket, if_neg h1, if_neg h2, if_neg h3, if_pos h4,
        if_neg h5, if_pos hSize]
      by_cases h7 : readU16 data 4 = 1
      · simp only [if_pos h7, Inv]
        refine ⟨?_, ?_, ?_, ?_⟩ <;>
          simp [h7, setBitsBelow_single 1 (le_refl 1), hle, hSize,
            Config.MAX_PACKETS]
      · simp only [if_neg h7, Inv]
        refine ⟨?_, ?_, ?_, ?_⟩ <;>
          simp [setBitsBelow_single _ htp1, hle, hSize, Ne.symm h7]
  · -- continuation packet
    by_cases h8 : readU32 data 0 = s.currentFrame.frameId ∧
        s.currentFrame.receivedPackets > 0
    · by_cases h9 : s.packetReceived (readU16 data 6) = false
      · by_cases h10 : (s.currentFrame.totalSize + readU32 data 8) % 4294967296 ≤
            Config.MAX_FRAME_SIZE
        · -- accepted continuation
          have hidx : readU16 data 6 < s.currentFrame.totalPackets := by
            rw [← hTotEq h4]; exact hlt
          have hcount := setBitsBelow_update_true s.packetReceived hidx h9
          have hcle := setBitsBelow_le s.packetReceived s.currentFrame.totalPackets
          have hMP : Config.MAX_PACKETS = 500 := rfl
          have hr500 : s.currentFrame.receivedPackets ≤ Config.MAX_PACKETS := by
            calc s.currentFrame.receivedPackets ≤ _ := hA
              _ ≤ s.currentFrame.totalPackets := hcle
              _ ≤ Config.MAX_PACKETS := hB
          have hmod : (s.currentFrame.receivedPackets + 1) % 65536 =
              s.currentFrame.receivedPackets + 1 := by
            apply Nat.mod_eq_of_lt
            omega
          have hnotfull : s.currentFrame.receivedPackets <
              s.currentFrame.totalPackets := by
            have := setBitsBelow_lt s.packetReceived hidx h9
            omega
          have holdC : s.currentFrame.isComplete = false := by
            rcases Bool.eq_false_or_eq_true s.currentFrame.isComplete with h | h
            · exact absurd (hD.mp h).1 (by omega)
            · exact h
          simp only [processPacket, if_neg h1, if_neg h2, if_neg h3, if_neg h4,
            if_pos h8, if_pos h9, if_pos h10, Inv]
          refine ⟨?_, ?_, ?_, ?_⟩
          · simp only [hmod]
            simp [hcount]
            omega
          · simpa using hB
          · simpa using h10
          · simp only [hmod]
            by_cases hEq : s.currentFrame.receivedPackets + 1 =
                s.currentFrame.totalPackets
            · simp [hEq]
              omega
            · simp [hEq, holdC]
        · simp only [processPacket, if_neg h1, if_neg h2, if_neg h3, if_neg h4,
            if_pos h8, if_pos h9, if_neg h10]
          exact ⟨hA, hB, hC, hD⟩
      · simp only [processPacket, if_neg h1, if_neg h2, if_neg h3, if_neg h4,
          if_pos h8, if_neg h9]
        exact ⟨hA, hB, hC, hD⟩
    · simp only [processPacket, if_neg h1, if_neg h2, if_neg h3, if_neg h4,
        if_neg h8]
      exact ⟨hA, hB, hC, hD⟩

theorem inv_assembleCompleteFrame {s : ProcState} (hInv : Inv s) :
    Inv (assembleCompleteFrame s).2 := by
  obtain ⟨hA, hB, hC, hD⟩ := hInv
  unfold assembleCompleteFrame
  split_ifs <;> exact ⟨hA, hB, hC, hD⟩

theorem inv_handleFrameTimeout {s : ProcState} {now : Nat} {lock : Bool}
    (hInv : Inv s) : Inv (handleFrameTimeout s now lock) := by
  obtain ⟨hA, hB, hC, hD⟩ := hInv
  unfold handleFrameTimeout
  split_ifs with hcond hlock
  · exact ⟨Nat.zero_le _, hB, hC, by simp⟩
  · exact ⟨hA, hB, hC, hD⟩
  · exact ⟨hA, hB, hC, hD⟩

theorem inv_resetCurrentFrame {s : ProcState} (hInv : Inv s) :
    Inv (resetCurrentFrame s) := by
  obtain ⟨hA, hB, hC, hD⟩ := hInv
  exact ⟨Nat.zero_le _, hB, hC, by simp [resetCurrentFrame]⟩

theorem inv_reachable {s : ProcState} (h : ReachableWhen GoodOp s) : Inv s := by
  induction h with
  | init => exact inv_initState
  | @step s' op hreach hgood ih =>
    cases op with
    | packet d n l => exact inv_processPacket ih hgood
    | assemble => exact inv_assembleCompleteFrame ih
    | timeout n l => exact inv_handleFrameTimeout ih
    | reset => exact inv_resetCurrentFrame ih

/-! ## Concrete packets and states used in witnesses and counterexamples -/

/-- Fragment 0 of frame 7, declaring `totalPackets = 2`, with the two
payload bytes `FF D8`. -/
def pktStart2 : List Nat := [7, 0, 0, 0, 2, 0, 0, 0, 2, 0, 0, 0, 0xFF, 0xD8]

/-- Continuation packet for frame 7 declaring `totalPackets = 3`,
fragment index 1, one payload byte. -/
def pktCont1 : List Nat := [7, 0, 0, 0, 3, 0, 1, 0, 1, 0, 0, 0, 0]

/-- Continuation packet for frame 7 declaring `totalPackets = 3`,
fragment index 2, one payload byte. -/
def pktCont2 : List Nat := [7, 0, 0, 0, 3, 0, 2, 0, 1, 0, 0, 0, 0]

/-- A complete single-packet frame 9 (`totalPackets = 1`). -/
def pktSingle : List Nat := [9, 0, 0, 0, 1, 0, 0, 0, 2, 0, 0, 0, 0xFF, 0xD8]

/-- State after processing `pktStart2` from the initialized state. -/
def stateA : ProcState := (processPacket initState pktStart2 0 true).2

/-- State after additionally processing `pktCont1`. -/
def stateB : ProcState := (processPacket stateA pktCont1 0 true).2

/-- State after additionally processing `pktCont2`. -/
def stateC : ProcState := (processPacket stateB pktCont2 0 true).2

/-- State after processing the single-packet frame `pktSingle`. -/
def stateS : ProcState := (processPacket initState pktSingle 0 true).2

/-! ## Claim theorems -/

/-- C6: `validateCompleteJPEG` returns true exactly when the size is at
least 20, the buffer starts with the JPEG start marker `FF D8`, and the
end marker pair `FF D9` occurs with both bytes inside the last 20 bytes
of the buffer (pair positions `i ≥ size - 20`, `i + 1 ≤ size - 1`). -/
theorem validateCompleteJPEG_spec (buf : Buf) (size : Nat) :
    validateCompleteJPEG buf size = true ↔
      (20 ≤ size ∧ buf 0 = 0xFF ∧ buf 1 = 0xD8 ∧
        ∃ i, size ≤ i + 20 ∧ i + 1 < size ∧ buf i = 0xFF ∧ buf (i + 1) = 0xD9) := by
  unfold validateCompleteJPEG
  by_cases h1 : size < 20
  · rw [if_pos h1]
    constructor
    · intro h
      exact absurd h (by simp)
    · rintro ⟨h20, _⟩
      omega
  · rw [if_neg h1]
    by_cases h2 : buf 0 ≠ 0xFF ∨ buf 1 ≠ 0xD8
    · rw [if_pos h2]
      constructor
      · intro h
        exact absurd h (by simp)
      · rintro ⟨_, hb0, hb1, _⟩
        rcases h2 with h | h
        · exact absurd hb0 h
        · exact absurd hb1 h
    · rw [if_neg h2]
      push_neg at h2
      obtain ⟨hb0, hb1⟩ := h2
      have hss : (if size > 20 then size - 20 else 0) = size - 20 := by
        split_ifs with h <;> omega
      rw [hss]
      rw [List.any_eq_true]
      constructor
      · rintro ⟨k, hk, hpair⟩
        rw [List.mem_range] at hk
        rw [Bool.and_eq_true, beq_iff_eq, beq_iff_eq] at hpair
        refine ⟨by omega, hb0, hb1, size - 20 + k, by omega, by omega,
          hpair.1, hpair.2⟩
      · rintro ⟨_, _, _, i, hi20, hi1, hiFF, hiD9⟩
        refine ⟨i - (size - 20), List.mem_range.mpr (by omega), ?_⟩
        rw [Bool.and_eq_true, beq_iff_eq, beq_iff_eq]
        have hrw : size - 20 + (i - (size - 20)) = i := by omega
        rw [hrw]
        exact ⟨hiFF, hiD9⟩

/-- C7 (amended): `handleFrameTimeout` clears `receivedPackets` and
`isComplete` and increments the incomplete-frame counter exactly when a
frame is in-flight (`receivedPackets > 0`), the elapsed time exceeds
`FRAME_TIMEOUT`, and the lock is acquired; in every other case the
state is unchanged.  (The code does not test `isComplete`: a completed
frame that has not yet been rendered is also cleared.) -/
theorem handleFrameTimeout_spec (s : ProcState) (now : Nat) (lock : Bool) :
    handleFrameTimeout s now lock =
      if 0 < s.currentFrame.receivedPackets ∧
          Config.FRAME_TIMEOUT < elapsedMillis now s.currentFrame.startTime ∧
          lock = true then
        { s with
          currentFrame :=
            { s.currentFrame with receivedPackets := 0, isComplete := false },
          perf := { s.perf with
            incompleteFramesDiscarded :=
              (s.perf.incompleteFramesDiscarded + 1) % 4294967296 } }
      else s := by
  unfold handleFrameTimeout
  by_cases h1 : s.currentFrame.receivedPackets > 0 ∧
      elapsedMillis now s.currentFrame.startTime > Config.FRAME_TIMEOUT
  · rw [if_pos h1]
    by_cases h2 : lock = true
    · rw [if_pos h2, if_pos ⟨h1.1, h1.2, h2⟩]
    · rw [if_neg h2, if_neg (by tauto)]
  · rw [if_neg h1, if_neg (by tauto)]

/-- C8: the adaptive pacing step.  If the measured throughput exceeds
`TARGET_FPS` by more than 10% the interval increases by one
millisecond, clamped above at `MIN_RENDER_INTERVAL` (the slowest
interval); if it is more than 10% below target the interval decreases
by one millisecond, clamped below at `FAST_RENDER_INTERVAL` (the
fastest interval); otherwise it is unchanged.  In particular a
throughput 20% above target yields exactly one increasing step. -/
theorem adaptiveStep_spec (avgFPS : ℚ) (interval : Nat)
    (hlo : Config.FAST_RENDER_INTERVAL ≤ interval)
    (hhi : interval ≤ Config.MIN_RENDER_INTERVAL) :
    ((Config.TARGET_FPS : ℚ) * (11 / 10) < avgFPS →
        adaptiveStep avgFPS interval = min (interval + 1) Config.MIN_RENDER_INTERVAL) ∧
      (avgFPS < (Config.TARGET_FPS : ℚ) * (9 / 10) →
        adaptiveStep avgFPS interval = max (interval - 1) Config.FAST_RENDER_INTERVAL) ∧
      ((Config.TARGET_FPS : ℚ) * (9 / 10) ≤ avgFPS →
        avgFPS ≤ (Config.TARGET_FPS : ℚ) * (11 / 10) →
        adaptiveStep avgFPS interval = interval) ∧
      (adaptiveStep ((12 : ℚ) / 10 * Config.TARGET_FPS) interval =
        min (interval + 1) Config.MIN_RENDER_INTERVAL) := by
  have hlo' : 8 ≤ interval := hlo
  have hhi' : interval ≤ 16 := hhi
  have hmod1 : (interval + 1) % 4294967296 = interval + 1 := by omega
  have hmod2 : (interval + 4294967296 - 1) % 4294967296 = interval - 1 := by
    omega
  refine ⟨?_, ?_, ?_, ?_⟩
  · intro hgt
    rw [adaptiveStep, if_pos hgt, hmod1]
  · intro hlt
    rw [adaptiveStep, if_neg (by push_neg; linarith), if_pos hlt, hmod2]
  · intro hge hle
    rw [adaptiveStep, if_neg (by push_neg; exact hle), if_neg (by push_neg; exact hge)]
  · rw [adaptiveStep, if_pos (by norm_num [Config.TARGET_FPS]), hmod1]

/-- C8 witness: at a measured throughput of 72 FPS (20% above the
60 FPS target) and the slowest interval 16, the step keeps the interval
clamped at `MIN_RENDER_INTERVAL`. -/
theorem adaptiveStep_spec_witness :
    Config.FAST_RENDER_INTERVAL ≤ 16 ∧ (16 : Nat) ≤ Config.MIN_RENDER_INTERVAL ∧
      adaptiveStep ((12 : ℚ) / 10 * Config.TARGET_FPS) 16 =
        min (16 + 1) Config.MIN_RENDER_INTERVAL :=
  ⟨by decide, by decide,
    (adaptiveStep_spec ((12 : ℚ) / 10 * Config.TARGET_FPS) 16 (by decide)
      (by decide)).2.2.2⟩

/-- C3 (amended): redelivering a fragment of index ≥ 1 whose tracking
bit is already set is a complete no-op: `processPacket` reports failure
and returns the state unchanged (descriptor, tracking bits, buffers and
counters).  (Index 0 is excluded: a fragment-0 packet restarts the
frame instead.) -/
theorem duplicate_fragment_noop (s : ProcState) (data : List Nat) (now : Nat)
    (lock : Bool) (hidx : readU16 data 6 ≠ 0)
    (hdup : s.packetReceived (readU16 data 6) = true) :
    processPacket s data now lock = (false, s) := by
  by_cases h1 : data.length < 12
  · simp only [processPacket, if_pos h1]
  by_cases h2 : readU32 data 8 ≠ data.length - 12 ∨
      readU16 data 6 ≥ readU16 data 4 ∨ readU16 data 4 = 0 ∨
      readU16 data 4 > Config.MAX_PACKETS
  · simp only [processPacket, if_neg h1, if_pos h2]
  by_cases h3 : lock = false
  · simp only [processPacket, if_neg h1, if_neg h2, if_pos h3]
  by_cases h8 : readU32 data 0 = s.currentFrame.frameId ∧
      s.currentFrame.receivedPackets > 0
  · have h9 : ¬(s.packetReceived (readU16 data 6) = false) := by simp [hdup]
    simp only [processPacket, if_neg h1, if_neg h2, if_neg h3, if_neg hidx,
      if_pos h8, if_neg h9]
  · simp only [processPacket, if_neg h1, if_neg h2, if_neg h3, if_neg hidx,
      if_neg h8]

/-- C3 witness: a duplicate of fragment index 1 (already received in
`stateB`) is rejected and the state is returned unchanged. -/
theorem duplicate_fragment_noop_witness :
    readU16 pktCont1 6 ≠ 0 ∧ stateB.packetReceived (readU16 pktCont1 6) = true ∧
      processPacket stateB pktCont1 0 true = (false, stateB) :=
  ⟨by decide, by decide,
    duplicate_fragment_noop stateB pktCont1 0 true (by decide) (by decide)⟩

/-- C3 counterexample: redelivering fragment 0 of the in-flight frame
(tracking bit 0 already set in `stateA`) is not a no-op: the call
reports success and the started-frame counter advances from 1 to 2. -/
theorem frag0_redelivery_not_noop :
    stateA.packetReceived 0 = true ∧
      (processPacket stateA pktStart2 0 true).1 = true ∧
      stateA.perf.totalFramesStarted = 1 ∧
      (processPacket stateA pktStart2 0 true).2.perf.totalFramesStarted = 2 :=
  ⟨by decide, by decide, by decide, by decide⟩

/-- C4 (amended): a continuation packet is accepted when its 32-bit
wire `frameId` equals the *stored* frame id — the started frame's wire
id truncated to the 16-bit struct field — together with the other
stated conditions: an in-flight frame (`0 < receivedPackets ≤
MAX_PACKETS`), a nonzero fragment index below the packet's
`totalPackets` (≤ `MAX_PACKETS`) whose tracking bit is unset, a
declared payload size matching the datagram, and a fitting total size.
It then reports success, appends the payload at offset `totalSize`,
advances `totalSize`, marks the tracking bit and increments
`receivedPackets`. -/
theorem continuation_accept (s : ProcState) (data : List Nat) (now : Nat)
    (hlen : 12 ≤ data.length)
    (hid : readU32 data 0 = s.currentFrame.frameId)
    (hidx0 : readU16 data 6 ≠ 0)
    (hilt : readU16 data 6 < readU16 data 4)
    (htp : readU16 data 4 ≤ Config.MAX_PACKETS)
    (hps : readU32 data 8 = data.length - 12)
    (hrecv : 0 < s.currentFrame.receivedPackets)
    (hrb : s.currentFrame.receivedPackets ≤ Config.MAX_PACKETS)
    (hdup : s.packetReceived (readU16 data 6) = false)
    (hfit : s.currentFrame.totalSize + readU32 data 8 ≤ Config.MAX_FRAME_SIZE) :
    (processPacket s data now true).1 = true ∧
      (processPacket s data now true).2.currentFrame.receivedPackets =
        s.currentFrame.receivedPackets + 1 ∧
      (processPacket s data now true).2.currentFrame.totalSize =
        s.currentFrame.totalSize + readU32 data 8 ∧
      (processPacket s data now true).2.packetReceived (readU16 data 6) = true ∧
      (∀ k, k < data.length - 12 →
        (processPacket s data now true).2.assemblyBuffer
            (s.currentFrame.totalSize + k) = (data.drop 12).getD k 0) ∧
      (∀ i, i < s.currentFrame.totalSize →
        (processPacket s data now true).2.assemblyBuffer i = s.assemblyBuffer i) := by
  have hMF : Config.MAX_FRAME_SIZE = 35000 := rfl
  have hMP : Config.MAX_PACKETS = 500 := rfl
  have h1 : ¬(data.length < 12) := by omega
  have hne0 : readU16 data 4 ≠ 0 := by omega
  have h2 : ¬(readU32 data 8 ≠ data.length - 12 ∨
      readU16 data 6 ≥ readU16 data 4 ∨ readU16 data 4 = 0 ∨
      readU16 data 4 > Config.MAX_PACKETS) := by
    push_neg
    exact ⟨hps, hilt, hne0, htp⟩
  have h3 : ¬((true : Bool) = false) := by simp
  have h8 : readU32 data 0 = s.currentFrame.frameId ∧
      s.currentFrame.receivedPackets > 0 := ⟨hid, hrecv⟩
  have hsum : (s.currentFrame.totalSize + readU32 data 8) % 4294967296 =
      s.currentFrame.totalSize + readU32 data 8 := by
    apply Nat.mod_eq_of_lt
    omega
  have h10 : (s.currentFrame.totalSize + readU32 data 8) % 4294967296 ≤
      Config.MAX_FRAME_SIZE := by
    rw [hsum]
    exact hfit
  have hrmod : (s.currentFrame.receivedPackets + 1) % 65536 =
      s.currentFrame.receivedPackets + 1 := by
    apply Nat.mod_eq_of_lt
    omega
  simp only [processPacket, if_neg h1, if_neg h2, if_neg h3, if_neg hidx0,
    if_pos h8, if_pos hdup, if_pos h10]
  refine ⟨trivial, by simp [hrmod], by simp [hsum], by simp [Function.update_apply], ?_, ?_⟩
  · intro k hk
    have hdl : (data.drop 12).length = data.length - 12 := by
      simp [List.length_drop]
    simp only [writeBytes_apply, hdl]
    rw [if_pos (by omega)]
    congr 1
    omega
  · intro i hi
    have hdl : (data.drop 12).length = data.length - 12 := by
      simp [List.length_drop]
    simp only [writeBytes_apply, hdl]
    rw [if_neg (by omega)]

/-- C4 witness: `stateA` has one in-flight frame with stored id 7; the
continuation `pktCont1` (wire frame id 7, index 1) is accepted. -/
theorem continuation_accept_witness :
    (processPacket stateA pktCont1 0 true).1 = true ∧
      (processPacket stateA pktCont1 0 true).2.currentFrame.receivedPackets =
        stateA.currentFrame.receivedPackets + 1 :=
  by
    have h := continuation_accept stateA pktCont1 0 (by decide) (by decide)
      (by decide) (by decide) (by decide) (by decide) (by decide) (by decide)
      (by decide) (by decide)
    exact ⟨h.1, h.2.1⟩

/-- C4 counterexample: a frame started with the 32-bit wire frame id
65536 stores only its low 16 bits (0); a continuation carrying the
same 32-bit frame id 65536 and satisfying every other acceptance
condition is nevertheless rejected, with the state unchanged. -/
theorem continuation_same_u32_id_rejected :
    (processPacket initState ([0, 0, 1, 0, 2, 0, 0, 0, 2, 0, 0, 0, 0xFF, 0xD8]) 0 true).2.currentFrame.frameId
        = 0 ∧
      readU32 ([0, 0, 1, 0, 2, 0, 0, 0, 2, 0, 0, 0, 0xFF, 0xD8]) 0 = 65536 ∧
      readU32 ([0, 0, 1, 0, 3, 0, 1, 0, 1, 0, 0, 0, 0]) 0 = 65536 ∧
      processPacket
          (processPacket initState ([0, 0, 1, 0, 2, 0, 0, 0, 2, 0, 0, 0, 0xFF, 0xD8]) 0 true).2
          ([0, 0, 1, 0, 3, 0, 1, 0, 1, 0, 0, 0, 0]) 0 true =
        (false,
          (processPacket initState ([0, 0, 1, 0, 2, 0, 0, 0, 2, 0, 0, 0, 0xFF, 0xD8]) 0 true).2) := by
  exact ⟨by decide, by decide, by decide, rfl⟩

/-- C10: a fragment-0 packet that passes the header checks and starts
with `FF D8` but whose payload size exceeds `MAX_FRAME_SIZE` makes
`processPacket` return failure, yet the frame descriptor has already
been reset to the new frame (`receivedPackets = 1`, `totalSize` equal
to the oversized payload size, `isComplete = false`), the tracking set
has been cleared with bit 0 marked, and the started-frame counter has
been incremented; the assembly-buffer copy and the completion mark are
skipped. -/
theorem frag0_oversized (s : ProcState) (data : List Nat) (now : Nat)
    (hlen : 14 ≤ data.length)
    (hidx : readU16 data 6 = 0)
    (htp0 : readU16 data 4 ≠ 0)
    (htp : readU16 data 4 ≤ Config.MAX_PACKETS)
    (hps : readU32 data 8 = data.length - 12)
    (hov : Config.MAX_FRAME_SIZE < readU32 data 8)
    (hj0 : (data.drop 12).getD 0 0 = 0xFF)
    (hj1 : (data.drop 12).getD 1 0 = 0xD8) :
    processPacket s data now true =
      (false,
        { s with
          currentFrame :=
            { frameId := readU32 data 0 % 65536,
              totalPackets := readU16 data 4,
              receivedPackets := 1,
              totalSize := readU32 data 8,
              startTime := now % 4294967296,
              isComplete := false, isValid := false, isRendering := false },
          perf := { s.perf with
            totalFramesStarted := (s.perf.totalFramesStarted + 1) % 4294967296 },
          packetReceived := Function.update (fun _ => false) 0 true }) := by
  have h1 : ¬(data.length < 12) := by omega
  have h2 : ¬(readU32 data 8 ≠ data.length - 12 ∨
      readU16 data 6 ≥ readU16 data 4 ∨ readU16 data 4 = 0 ∨
      readU16 data 4 > Config.MAX_PACKETS) := by
    push_neg
    exact ⟨hps, by omega, htp0, htp⟩
  have h3 : ¬((true : Bool) = false) := by simp
  have h5 : ¬(data.length - 12 < 2 ∨ (data.drop 12).getD 0 0 ≠ 0xFF ∨
      (data.drop 12).getD 1 0 ≠ 0xD8) := by
    push_neg
    exact ⟨by omega, hj0, hj1⟩
  have h6 : ¬(readU32 data 8 ≤ Config.MAX_FRAME_SIZE) := by omega
  simp only [processPacket, if_neg h1, if_neg h2, if_neg h3, if_pos hidx,
    if_neg h5, if_neg h6]

/-- A 35013-byte fragment-0 datagram for frame 9 declaring
`totalPackets = 1` and payload size 35001 (> `MAX_FRAME_SIZE`). -/
def pktOversized : List Nat :=
  [9, 0, 0, 0, 1, 0, 0, 0, 185, 136, 0, 0, 0xFF, 0xD8] ++
    List.replicate 34999 0

theorem pktOversized_length : pktOversized.length = 35013 := by
  have h : pktOversized.length =
      [9, 0, 0, 0, 1, 0, 0, 0, 185, 136, 0, 0, 0xFF, 0xD8].length +
        (List.replicate 34999 (0 : Nat)).length := by
    simp only [pktOversized, List.length_append]
  rw [h, List.length_replicate]
  decide

/-- C10 witness: the 35013-byte fragment-0 datagram `pktOversized`,
whose declared payload size 35001 exceeds `MAX_FRAME_SIZE = 35000`. -/
theorem frag0_oversized_witness :
    processPacket initState pktOversized 0 true =
      (false,
        { initState with
          currentFrame :=
            { frameId := readU32 pktOversized 0 % 65536,
              totalPackets := readU16 pktOversized 4,
              receivedPackets := 1,
              totalSize := readU32 pktOversized 8,
              startTime := 0 % 4294967296,
              isComplete := false, isValid := false, isRendering := false },
          perf := { initState.perf with
            totalFramesStarted := (initState.perf.totalFramesStarted + 1) % 4294967296 },
          packetReceived := Function.update (fun _ => false) 0 true }) := by
  have h8 : readU32 pktOversized 8 = 35001 := by decide
  apply frag0_oversized
  · rw [pktOversized_length]
    omega
  · decide
  · decide
  · decide
  · rw [h8, pktOversized_length]
  · rw [h8]
    decide
  · decide
  · decide

/-- C7 counterexample: `stateS` holds a *complete* single-packet frame
(started at time 0); at time 200 `handleFrameTimeout` clears it and
counts it as incomplete, although the claim says a complete frame is
left unchanged. -/
theorem timeout_clears_complete_frame :
    stateS.currentFrame.isComplete = true ∧
      stateS.currentFrame.receivedPackets = 1 ∧
      (handleFrameTimeout stateS 200 true).currentFrame.receivedPackets = 0 ∧
      (handleFrameTimeout stateS 200 true).perf.incompleteFramesDiscarded = 1 :=
  ⟨by decide, by decide, by decide, by decide⟩

/-- Whether some packet among indices `0 .. totalPackets-1` is still
missing (the failing condition of the verification loop in
`assembleCompleteFrame`). -/
def missingPacket (s : ProcState) : Bool :=
  !(List.range s.currentFrame.totalPackets).all (fun i => s.packetReceived i)

/-- C5 (amended): when `assembleCompleteFrame` fails it leaves the
render (frame) buffer and the frame descriptor unchanged; it failed
either because some tracking bit below `totalPackets` is unset — in
which case *no* counter changes — or because `validateCompleteJPEG`
rejected the assembly buffer, in which case the corrupt-frame counter
increments by exactly one. -/
theorem assembleCompleteFrame_failure (s : ProcState)
    (h : (assembleCompleteFrame s).1 = false) :
    (missingPacket s = true ∨
        validateCompleteJPEG s.assemblyBuffer s.currentFrame.totalSize = false) ∧
      (assembleCompleteFrame s).2.frameBuffer = s.frameBuffer ∧
      (assembleCompleteFrame s).2.currentFrame = s.currentFrame ∧
      (assembleCompleteFrame s).2.perf.corruptFramesDiscarded =
        (if missingPacket s = true then s.perf.corruptFramesDiscarded
          else (s.perf.corruptFramesDiscarded + 1) % 4294967296) := by
  unfold assembleCompleteFrame at h ⊢
  by_cases hall : (List.range s.currentFrame.totalPackets).all
      (fun i => s.packetReceived i) = true
  · have hmiss : missingPacket s = false := by
      simp [missingPacket, hall]
    rw [if_pos hall] at h ⊢
    by_cases hval : validateCompleteJPEG s.assemblyBuffer s.currentFrame.totalSize = true
    · rw [if_pos hval] at h
      exact absurd h (by simp)
    · rw [if_neg hval] at h ⊢
      refine ⟨Or.inr (by simp at hval; exact hval), rfl, rfl, ?_⟩
      rw [if_neg (by simp [hmiss])]
  · have hmiss : missingPacket s = true := by
      simp only [missingPacket, Bool.not_eq_true']
      simp only [Bool.not_eq_true] at hall
      exact hall
    rw [if_neg hall] at h ⊢
    exact ⟨Or.inl hmiss, rfl, rfl, by rw [if_pos hmiss]⟩

/-- C5 witness: from the freshly initialized state (no packets,
`totalPackets = 0`, so no packet is missing but the empty buffer fails
validation), assembly fails and the corrupt counter increments. -/
theorem assembleCompleteFrame_failure_witness :
    (missingPacket initState = true ∨
        validateCompleteJPEG initState.assemblyBuffer
          initState.currentFrame.totalSize = false) ∧
      (assembleCompleteFrame initState).2.frameBuffer = initState.frameBuffer ∧
      (assembleCompleteFrame initState).2.currentFrame = initState.currentFrame ∧
      (assembleCompleteFrame initState).2.perf.corruptFramesDiscarded =
        (if missingPacket initState = true then
            initState.perf.corruptFramesDiscarded
          else (initState.perf.corruptFramesDiscarded + 1) % 4294967296) :=
  assembleCompleteFrame_failure initState (by decide)

/-- C5 counterexample: in `stateA` packet 1 of 2 is missing;
`assembleCompleteFrame` fails but the corrupt-frame counter is *not*
incremented (it stays 0), contradicting the claim that every failure
increments it by exactly one. -/
theorem assemble_missing_does_not_count_corrupt :
    missingPacket stateA = true ∧
      (assembleCompleteFrame stateA).1 = false ∧
      stateA.perf.corruptFramesDiscarded = 0 ∧
      (assembleCompleteFrame stateA).2.perf.corruptFramesDiscarded = 0 :=
  ⟨by decide, by decide, by decide, by decide⟩

/-- C1 (amended): for every state reachable using packets whose
declared payload size is at most `MAX_FRAME_SIZE` and whose
continuation fragments carry the in-flight frame's `totalPackets`,
the frame descriptor satisfies
`receivedPackets ≤ totalPackets ≤ MAX_PACKETS` and
`totalSize ≤ MAX_FRAME_SIZE`. -/
theorem frame_invariant_good (s : ProcState) (h : ReachableWhen GoodOp s) :
    s.currentFrame.receivedPackets ≤ s.currentFrame.totalPackets ∧
      s.currentFrame.totalPackets ≤ Config.MAX_PACKETS ∧
      s.currentFrame.totalSize ≤ Config.MAX_FRAME_SIZE := by
  obtain ⟨hA, hB, hC, _⟩ := inv_reachable h
  exact ⟨le_trans hA (setBitsBelow_le _ _), hB, hC⟩

/-- C1 witness: the invariant holds of the state reached by starting a
frame with `pktStart2` (a `GoodPkt`) from the initialized state. -/
theorem frame_invariant_good_witness :
    stateA.currentFrame.receivedPackets ≤ stateA.currentFrame.totalPackets ∧
      stateA.currentFrame.totalPackets ≤ Config.MAX_PACKETS ∧
      stateA.currentFrame.totalSize ≤ Config.MAX_FRAME_SIZE := by
  have hgood : GoodOp initState (Op.packet pktStart2 0 true) :=
    ⟨by decide, fun hc => absurd (by decide) hc⟩
  have hreach : ReachableWhen GoodOp stateA := by
    have h := ReachableWhen.step ReachableWhen.init hgood
    exact h
  exact frame_invariant_good stateA hreach

/-- C1 counterexample: mixing continuation packets that declare a
larger `totalPackets` than the in-flight frame produces a reachable
state (three `processPacket` calls from the initialized state) with
`receivedPackets = 3 > totalPackets = 2`, refuting
`receivedPackets ≤ totalPackets` over arbitrary packet sequences. -/
theorem frame_invariant_violated :
    Reachable stateC ∧ stateC.currentFrame.totalPackets = 2 ∧
      stateC.currentFrame.receivedPackets = 3 := by
  refine ⟨?_, by decide, by decide⟩
  show ReachableWhen _ _
  have h0 : stateC = applyOp (applyOp (applyOp initState
      (Op.packet pktStart2 0 true)) (Op.packet pktCont1 0 true))
      (Op.packet pktCont2 0 true) := rfl
  rw [h0]
  exact ReachableWhen.step (ReachableWhen.step (ReachableWhen.step
    ReachableWhen.init trivial) trivial) trivial

/-- Across any single operation, `isComplete` can only become true
together with `receivedPackets = totalPackets`. -/
theorem step_isComplete (s : ProcState) (op : Op) :
    (applyOp s op).currentFrame.isComplete = true →
      s.currentFrame.isComplete = true ∨
        (applyOp s op).currentFrame.receivedPackets =
          (applyOp s op).currentFrame.totalPackets := by
  cases op with
  | packet d n l =>
    simp only [applyOp, processPacket]
    split_ifs <;> intro h <;>
      first
        | exact Or.inl h
        | (left; simpa using h)
        | (right; simp_all)
        | simp_all
  | assemble =>
    simp only [applyOp, assembleCompleteFrame]
    split_ifs <;> intro h <;> exact Or.inl (by simpa using h)
  | timeout n l =>
    simp only [applyOp, handleFrameTimeout]
    split_ifs <;> intro h <;>
      first
        | exact Or.inl h
        | simp_all
  | reset =>
    simp only [applyOp, resetCurrentFrame]
    intro h
    simp_all

/-- Across any single operation, `isValid` can only become true through
`assembleCompleteFrame` after `validateCompleteJPEG` accepted the
assembly buffer. -/
theorem step_isValid (s : ProcState) (op : Op) :
    (applyOp s op).currentFrame.isValid = true →
      s.currentFrame.isValid = true ∨
        (op = Op.assemble ∧
          validateCompleteJPEG s.assemblyBuffer s.currentFrame.totalSize = true) := by
  cases op with
  | packet d n l =>
    simp only [applyOp, processPacket]
    split_ifs <;> intro h <;>
      first
        | exact Or.inl h
        | (left; simpa using h)
        | simp_all
  | assemble =>
    simp only [applyOp, assembleCompleteFrame]
    split_ifs with hall hval <;> intro h
    · exact Or.inr ⟨by trivial, hval⟩
    · exact Or.inl (by simpa using h)
    · exact Or.inl h
  | timeout n l =>
    simp only [applyOp, handleFrameTimeout]
    split_ifs <;> intro h <;>
      first
        | exact Or.inl h
        | (left; simpa using h)
  | reset =>
    simp only [applyOp, resetCurrentFrame]
    intro h
    simp_all

/-- C2 (amended): for states reachable under fitting payloads and
consistent continuation `totalPackets`, `isComplete` holds iff
`receivedPackets = totalPackets` *for a started frame*
(`receivedPackets ≥ 1`; the freshly reset descriptor has
`receivedPackets = totalPackets = 0` with `isComplete = false`);
across every operation `isComplete` becomes true only together with
`receivedPackets = totalPackets`, and `isValid` becomes true only
through `assembleCompleteFrame` after `validateCompleteJPEG` accepted
the assembly buffer. -/
theorem completion_validity_law (s : ProcState) (op : Op)
    (h : ReachableWhen GoodOp s) :
    (s.currentFrame.isComplete = true ↔
        (s.currentFrame.receivedPackets = s.currentFrame.totalPackets ∧
          1 ≤ s.currentFrame.receivedPackets)) ∧
      ((applyOp s op).currentFrame.isComplete = true →
        s.currentFrame.isComplete = true ∨
          (applyOp s op).currentFrame.receivedPackets =
            (applyOp s op).currentFrame.totalPackets) ∧
      ((applyOp s op).currentFrame.isValid = true →
        s.currentFrame.isValid = true ∨
          (op = Op.assemble ∧
            validateCompleteJPEG s.assemblyBuffer s.currentFrame.totalSize = true)) :=
  ⟨(inv_reachable h).2.2.2, step_isComplete s op, step_isValid s op⟩

/-- C2 witness: the law instantiated at the initialized state and a
`resetCurrentFrame` call. -/
theorem completion_validity_law_witness :
    (initState.currentFrame.isComplete = true ↔
        (initState.currentFrame.receivedPackets =
            initState.currentFrame.totalPackets ∧
          1 ≤ initState.currentFrame.receivedPackets)) ∧
      ((applyOp initState Op.reset).currentFrame.isComplete = true →
        initState.currentFrame.isComplete = true ∨
          (applyOp initState Op.reset).currentFrame.receivedPackets =
            (applyOp initState Op.reset).currentFrame.totalPackets) ∧
      ((applyOp initState Op.reset).currentFrame.isValid = true →
        initState.currentFrame.isValid = true ∨
          (Op.reset = Op.assemble ∧
            validateCompleteJPEG initState.assemblyBuffer
              initState.currentFrame.totalSize = true)) :=
  completion_validity_law initState Op.reset ReachableWhen.init

/-- The three-packet state `stateC` is reachable. -/
theorem reachable_stateC : Reachable stateC := by
  show ReachableWhen _ _
  have h0 : stateC = applyOp (applyOp (applyOp initState
      (Op.packet pktStart2 0 true)) (Op.packet pktCont1 0 true))
      (Op.packet pktCont2 0 true) := rfl
  rw [h0]
  exact ReachableWhen.step (ReachableWhen.step (ReachableWhen.step
    ReachableWhen.init trivial) trivial) trivial

/-- C2 counterexample: in the reachable state `stateC` the frame is
marked complete although `receivedPackets = 3 ≠ 2 = totalPackets`, so
`isComplete` does not hold iff `receivedPackets == totalPackets` over
arbitrary packet sequences. -/
theorem completion_iff_fails :
    Reachable stateC ∧ stateC.currentFrame.isComplete = true ∧
      stateC.currentFrame.receivedPackets = 3 ∧
      stateC.currentFrame.totalPackets = 2 :=
  ⟨reachable_stateC, by decide, by decide, by decide⟩

/-- Pixels inside the copied tile: row `r`, column `c` of the
destination rectangle receive `bitmap[r * w + c]`. -/
theorem copyTile_apply_in (db bm : Buf) (x y w : Nat)
    (hxw : x + w ≤ Config.DISPLAY_WIDTH) :
    ∀ h, y + h ≤ Config.DISPLAY_HEIGHT →
      ∀ r c, r < h → c < w →
        copyTile db bm x y w h ((y + r) * Config.DISPLAY_WIDTH + x + c) =
          bm (r * w + c) := by
  have hW : Config.DISPLAY_WIDTH = 480 := rfl
  have hH : Config.DISPLAY_HEIGHT = 320 := rfl
  intro h
  induction h with
  | zero =>
    intro _ r c hr _
    omega
  | succ n ih =>
    intro hyh r c hr hc
    rw [hW] at hxw ⊢
    rw [hH] at hyh
    simp only [copyTile, hW, hH]
    rw [if_pos (by omega)]
    simp only [writePixelRun]
    by_cases hrn : r = n
    · subst hrn
      rw [if_pos (by omega)]
      congr 1
      omega
    · rw [if_neg (by omega)]
      have hgoal := ih (by omega) r c (by omega) hc
      rw [hW] at hgoal
      exact hgoal

/-- Pixels outside every copied row run are untouched. -/
theorem copyTile_apply_out (db bm : Buf) (x y w : Nat) :
    ∀ h i, (∀ r, r < h → ¬((y + r) * Config.DISPLAY_WIDTH + x ≤ i ∧
        i < (y + r) * Config.DISPLAY_WIDTH + x + w)) →
      copyTile db bm x y w h i = db i := by
  intro h
  induction h with
  | zero =>
    intro i _
    rfl
  | succ n ih =>
    intro i hout
    simp only [copyTile]
    split_ifs with hg
    · simp only [writePixelRun]
      rw [if_neg (hout n (by omega))]
      exact ih i fun r hr => hout r (by omega)
    · exact ih i fun r hr => hout r (by omega)

/-- C9 (amended): for a decoded tile whose origin lies inside the
display (`x < DISPLAY_WIDTH`, `y < DISPLAY_HEIGHT`) and a non-null
bitmap, the callback clips the width and height to the display bounds,
returns success (1), and: with a pixel buffer it copies, for each
clipped row `r`, the `w'` pixels starting at `bitmap[r * w']` to the
buffer offset `(y + r) * DISPLAY_WIDTH + x`, leaving all other pixels
untouched (for an unclipped width these are exactly the tile's
pixels); without a pixel buffer it forwards the clipped rectangle to
the display device.  (A tile whose origin lies outside the display
makes the callback return 0, aborting decoding, rather than clipping
to an empty rectangle.) -/
theorem tile_callback_spec (x y w h : Nat) (bm db : Buf)
    (hx : x < Config.DISPLAY_WIDTH) (hy : y < Config.DISPLAY_HEIGHT) :
    (highSpeedTftOutput x y w h (some bm) (some db)).ret = 1 ∧
      (highSpeedTftOutput x y w h (some bm) none).ret = 1 ∧
      (highSpeedTftOutput x y w h (some bm) none).pushed =
        (if 0 < min w (Config.DISPLAY_WIDTH - x) ∧
            0 < min h (Config.DISPLAY_HEIGHT - y) then
          some (x, y, min w (Config.DISPLAY_WIDTH - x),
            min h (Config.DISPLAY_HEIGHT - y))
        else none) ∧
      ∃ db2, (highSpeedTftOutput x y w h (some bm) (some db)).buffer = some db2 ∧
        (∀ r c, r < min h (Config.DISPLAY_HEIGHT - y) →
          c < min w (Config.DISPLAY_WIDTH - x) →
          db2 ((y + r) * Config.DISPLAY_WIDTH + x + c) =
            bm (r * min w (Config.DISPLAY_WIDTH - x) + c)) ∧
        (∀ i, (∀ r, r < min h (Config.DISPLAY_HEIGHT - y) →
            ¬((y + r) * Config.DISPLAY_WIDTH + x ≤ i ∧
              i < (y + r) * Config.DISPLAY_WIDTH + x +
                min w (Config.DISPLAY_WIDTH - x))) →
          db2 i = db i) := by
  have hW : Config.DISPLAY_WIDTH = 480 := rfl
  have hH : Config.DISPLAY_HEIGHT = 320 := rfl
  have hcond : ¬(y ≥ Config.DISPLAY_HEIGHT ∨ x ≥ Config.DISPLAY_WIDTH) := by
    push_neg
    exact ⟨hy, hx⟩
  have hw1 : (if x + w > Config.DISPLAY_WIDTH then Config.DISPLAY_WIDTH - x
      else w) = min w (Config.DISPLAY_WIDTH - x) := by
    rw [hW] at hx ⊢
    split_ifs with hc <;> omega
  have hh1 : (if y + h > Config.DISPLAY_HEIGHT then Config.DISPLAY_HEIGHT - y
      else h) = min h (Config.DISPLAY_HEIGHT - y) := by
    rw [hH] at hy ⊢
    split_ifs with hc <;> omega
  simp only [highSpeedTftOutput, if_neg hcond, hw1, hh1]
  by_cases hpos : 0 < min w (Config.DISPLAY_WIDTH - x) ∧
      0 < min h (Config.DISPLAY_HEIGHT - y)
  · rw [if_pos ⟨hpos.1, hpos.2⟩, if_pos hpos]
    refine ⟨rfl, rfl, by rw [if_pos hpos],
      copyTile db bm x y (min w (Config.DISPLAY_WIDTH - x))
        (min h (Config.DISPLAY_HEIGHT - y)), rfl, ?_, ?_⟩
    · intro r c hr hc
      exact copyTile_apply_in db bm x y _ (by rw [hW] at hx ⊢; omega) _
        (by rw [hH] at hy ⊢; omega) r c hr hc
    · intro i hi
      exact copyTile_apply_out db bm x y _ _ i hi
  · rw [if_neg (by tauto), if_neg hpos]
    refine ⟨rfl, rfl, by rw [if_neg hpos], db, rfl, ?_, fun i _ => rfl⟩
    intro r c hr hc
    exact absurd ⟨by omega, by omega⟩ hpos

/-- C9 witness: a fully in-bounds 16×16 tile at the origin. -/
theorem tile_callback_spec_witness :
    (0 : Nat) < Config.DISPLAY_WIDTH ∧ (0 : Nat) < Config.DISPLAY_HEIGHT ∧
      (highSpeedTftOutput 0 0 16 16 (some (fun _ => 7)) (some (fun _ => 0))).ret = 1 :=
  ⟨by decide, by decide,
    (tile_callback_spec 0 0 16 16 (fun _ => 7) (fun _ => 0) (by decide)
      (by decide)).1⟩

/-- C9 counterexample: a tile delivered with its origin at
`x = DISPLAY_WIDTH` (just off the right edge) makes the callback
return 0 — decoding is aborted — instead of clipping and returning
success as the claim states for every delivered tile. -/
theorem tile_callback_out_of_bounds_fails :
    (highSpeedTftOutput Config.DISPLAY_WIDTH 0 16 16 (some (fun _ => 0))
        (some (fun _ => 0))).ret = 0 := by
  decide

end Wroom
